import Mathlib

/-!
Verification of the public-holidays data-access layer.

The definitions below are a shallow embedding of the TypeScript source:
the zod schemas of types/api.ts, the fetch pipeline of
services/holidaysApi.ts, the retry options of hooks/useCountries.ts and
hooks/useHolidays.ts, the constants of constants/api.ts, and the
localization helper getLocalizedText. JSON values are modelled by an
inductive type; machine-level concerns (promises, real HTTP) become
explicit data: a fetch outcome is either a network error or a response
carrying a status, a status text and a body that either parsed as JSON
or failed to parse.
-/

namespace PublicHolidaysApp

/-- A JSON value, the untyped input of schema validation. -/
inductive Json where
  | null : Json
  | bool (b : Bool) : Json
  | num (n : Int) : Json
  | str (s : String) : Json
  | arr (elems : List Json) : Json
  | obj (fields : List (String × Json)) : Json

/-- Field access on a JSON object: first binding of the key, none on
non-objects or absent keys (absence models the JS value undefined). -/
def Json.lookup : Json → String → Option Json
  | .obj fields, key => fields.lookup key
  | _, _ => none

/-- Whether a JSON value is an object. -/
def Json.isObj : Json → Bool
  | .obj _ => true
  | _ => false

/-- Whether a JSON value is a string. -/
def Json.isStr : Json → Bool
  | .str _ => true
  | _ => false

/-- Field access that also requires the field to be a JSON string. -/
def lookupStr (j : Json) (key : String) : Option String :=
  match j.lookup key with
  | some (.str s) => some s
  | _ => none

/-- Field access that also requires the field to be a JSON array. -/
def lookupArr (j : Json) (key : String) : Option (List Json) :=
  match j.lookup key with
  | some (.arr xs) => some xs
  | _ => none

/-- Mirrors LocalizedTextSchema of src/types/api.ts:
an object with string fields language and text. -/
structure LocalizedText where
  language : String
  text : String
deriving Repr, DecidableEq

/-- Mirrors CountrySchema of src/types/api.ts. -/
structure Country where
  isoCode : String
  name : List LocalizedText
  officialLanguages : List String
deriving Repr, DecidableEq

/-- Mirrors HolidaySchema of src/types/api.ts. -/
structure Holiday where
  id : String
  startDate : String
  endDate : String
  type : String
  nationwide : Bool
  name : List LocalizedText
  comment : Option (List LocalizedText)
deriving Repr, DecidableEq

/-- z.string(): succeeds exactly on JSON strings. -/
def parseString : Json → Option String
  | .str s => some s
  | _ => none

/-- z.boolean(): succeeds exactly on JSON booleans. -/
def parseBool : Json → Option Bool
  | .bool b => some b
  | _ => none

/-- Element-wise validation of a list; fails when any element fails,
as z.array does. -/
def parseAll (p : Json → Option α) : List Json → Option (List α)
  | [] => some []
  | x :: xs =>
    match p x, parseAll p xs with
    | some y, some ys => some (y :: ys)
    | _, _ => none

/-- z.array(p): requires a JSON array and validates every element. -/
def parseArray (p : Json → Option α) : Json → Option (List α)
  | .arr xs => parseAll p xs
  | _ => none

/-- LocalizedTextSchema.parse: requires an object whose language and
text fields are strings (zod strips unknown keys, so extra fields are
ignored). -/
def parseLocalizedText (j : Json) : Option LocalizedText :=
  match j with
  | .obj _ =>
    match lookupStr j "language", lookupStr j "text" with
    | some language, some text => some ⟨language, text⟩
    | _, _ => none
  | _ => none

/-- CountrySchema.parse: requires an object with a string isoCode, an
array of LocalizedText at name, and an array of strings at
officialLanguages. A missing required field makes validation fail. -/
def parseCountry (j : Json) : Option Country :=
  match j with
  | .obj _ =>
    match lookupStr j "isoCode", j.lookup "name", j.lookup "officialLanguages" with
    | some isoCode, some nameJson, some langsJson =>
      match parseArray parseLocalizedText nameJson, parseArray parseString langsJson with
      | some name, some officialLanguages => some ⟨isoCode, name, officialLanguages⟩
      | _, _ => none
    | _, _, _ => none
  | _ => none

/-- An optional field, as z.optional: absence is allowed (some none),
a present field must validate. -/
def parseOptField (j : Json) (key : String) (p : Json → Option α) : Option (Option α) :=
  match j.lookup key with
  | none => some none
  | some v => (p v).map some

/-- HolidaySchema.parse: object with string id, startDate, endDate and
type, boolean nationwide, LocalizedText array name, and an optional
LocalizedText array comment. -/
def parseHoliday (j : Json) : Option Holiday :=
  match j with
  | .obj _ =>
    match lookupStr j "id", lookupStr j "startDate", lookupStr j "endDate",
          lookupStr j "type", j.lookup "nationwide", j.lookup "name" with
    | some id, some startDate, some endDate, some ty, some natJson, some nameJson =>
      match parseBool natJson, parseArray parseLocalizedText nameJson,
            parseOptField j "comment" (parseArray parseLocalizedText) with
      | some nationwide, some name, some comment =>
        some ⟨id, startDate, endDate, ty, nationwide, name, comment⟩
      | _, _, _ => none
    | _, _, _, _, _, _ => none
  | _ => none

/-- CountriesResponseSchema = z.array(CountrySchema). -/
def CountriesResponseSchema : Json → Option (List Country) :=
  parseArray parseCountry

/-- HolidaysResponseSchema = z.array(HolidaySchema). -/
def HolidaysResponseSchema : Json → Option (List Holiday) :=
  parseArray parseHoliday

/-- The observable shape of the Error objects the API layer throws:
the name tag set by the constructor, the message, the optional HTTP
status carried by HolidaysApiError, and whether a cause (the zod
error) is attached, as in ValidationError of src/types/api.ts. -/
structure ErrModel where
  name : String
  message : String
  status : Option Nat
  hasCause : Bool
deriving Repr, DecidableEq

/-- new HolidaysApiError(message, status?) of services/holidaysApi.ts. -/
def HolidaysApiError.make (message : String) (status : Option Nat := none) : ErrModel :=
  ⟨"HolidaysApiError", message, status, false⟩

/-- new ValidationError(message, cause) of src/types/api.ts, as thrown
by fetchWithValidation with the zod error as cause. -/
def ValidationError.make (message : String) : ErrModel :=
  ⟨"ValidationError", message, none, true⟩

/-- The outcome of the fetch call and of reading its body: either the
promise rejects (network failure), or a response arrives with a status,
a status text, and a body that is JSON or a parse failure message. -/
inductive FetchResult where
  | netError (message : String) : FetchResult
  | response (status : Nat) (statusText : String) (body : Except String Json) : FetchResult

/-- Response.ok of the fetch API: status in the range 200 to 299. -/
def responseOk (status : Nat) : Bool :=
  200 ≤ status && status ≤ 299

/-- fetchWithValidation of services/holidaysApi.ts. On a rejected fetch
the catch block wraps the error message in a HolidaysApiError; a non-ok
response throws HolidaysApiError with the interpolated status text and
the numeric status; a body that fails JSON parsing is likewise wrapped
as HolidaysApiError; a parsed body failing schema.parse throws
ZodError which the catch converts to ValidationError with the zod
error as cause; otherwise the validated data is returned. -/
def fetchWithValidation (r : FetchResult) (schema : Json → Option T) : Except ErrModel T :=
  match r with
  | .netError msg => .error (HolidaysApiError.make msg)
  | .response status statusText body =>
    if responseOk status then
      match body with
      | .error msg => .error (HolidaysApiError.make msg)
      | .ok data =>
        match schema data with
        | none => .error (ValidationError.make "Invalid API response format")
        | some validatedData => .ok validatedData
    else
      .error (HolidaysApiError.make ("API request failed: " ++ statusText) (some status))

/-- API_BASE_URL of src/constants/api.ts. -/
def API_BASE_URL : String := "https://openholidaysapi.org"

namespace RETRY_CONFIG

/-- RETRY_CONFIG.MAX_RETRIES of src/constants/api.ts. -/
def MAX_RETRIES : Nat := 3

/-- RETRY_CONFIG.DELAY_MULTIPLIER of src/constants/api.ts. -/
def DELAY_MULTIPLIER : Nat := 1000

/-- RETRY_CONFIG.MAX_DELAY of src/constants/api.ts. -/
def MAX_DELAY : Nat := 30000

end RETRY_CONFIG

/-- fetchCountries: fetchWithValidation at the /Countries endpoint with
CountriesResponseSchema; the fetch outcome is explicit input. -/
def fetchCountries (r : FetchResult) : Except ErrModel (List Country) :=
  fetchWithValidation r CountriesResponseSchema

/-- The year actually used by fetchHolidays: the JS expression
year || new Date().getFullYear() defaults on an omitted year and on
the falsy year 0. -/
def fetchHolidaysYear (year : Option Nat) (currentYear : Nat) : Nat :=
  match year with
  | some y => if y = 0 then currentYear else y
  | none => currentYear

/-- The request URL built by fetchHolidays of services/holidaysApi.ts. -/
def fetchHolidaysUrl (countryIsoCode : String) (year : Option Nat) (currentYear : Nat) : String :=
  API_BASE_URL ++ "/PublicHolidays?countryIsoCode=" ++ countryIsoCode ++
    "&languageIsoCode=EN&validFrom=" ++ toString (fetchHolidaysYear year currentYear) ++
    "-01-01&validTo=" ++ toString (fetchHolidaysYear year currentYear) ++ "-12-31"

/-- fetchHolidays: fetchWithValidation with HolidaysResponseSchema on
the URL above; the fetch outcome is explicit input. -/
def fetchHolidays (r : FetchResult) : Except ErrModel (List Holiday) :=
  fetchWithValidation r HolidaysResponseSchema

/-- Written from the spec, section 6, which gives the upstream request
shape GET base/PublicHolidays with query parameters countryIsoCode,
languageIsoCode=EN, validFrom=Y-01-01 and validTo=Y-12-31, a closed
one-year interval; compared against fetchHolidaysUrl. -/
def specHolidaysRequestUrl (countryIsoCode : String) (y : Nat) : String :=
  API_BASE_URL ++ "/PublicHolidays?countryIsoCode=" ++ countryIsoCode ++
    "&languageIsoCode=EN&validFrom=" ++ toString y ++ "-01-01&validTo=" ++
    toString y ++ "-12-31"

/-- Whether the character list starts with the pattern list. -/
def charsStartWith : List Char → List Char → Bool
  | [], _ => true
  | _ :: _, [] => false
  | a :: as, b :: bs => a == b && charsStartWith as bs

/-- Whether the pattern list occurs contiguously in the character list. -/
def charsContain (pattern : List Char) : List Char → Bool
  | [] => pattern.isEmpty
  | b :: bs => charsStartWith pattern (b :: bs) || charsContain pattern bs

/-- String.prototype.includes of JS: substring containment. -/
def strIncludes (s pattern : String) : Bool :=
  charsContain pattern.toList s.toList

/-- The retry option of useCountries (src/hooks/useCountries.ts):
never retry a ValidationError, otherwise retry while failureCount is
below RETRY_CONFIG.MAX_RETRIES. -/
def countriesRetry (failureCount : Nat) (error : ErrModel) : Bool :=
  if error.name = "ValidationError" then false
  else failureCount < RETRY_CONFIG.MAX_RETRIES

/-- The retryDelay option of useCountries:
min(DELAY_MULTIPLIER * 2 ^ attemptIndex, MAX_DELAY). -/
def countriesRetryDelay (attemptIndex : Nat) : Nat :=
  min (RETRY_CONFIG.DELAY_MULTIPLIER * 2 ^ attemptIndex) RETRY_CONFIG.MAX_DELAY

/-- The retry option of useHolidays (src/hooks/useHolidays.ts): never
retry a ValidationError, never retry when the error message contains
the substring 404, otherwise retry while failureCount is below 2. -/
def holidaysRetry (failureCount : Nat) (error : ErrModel) : Bool :=
  if error.name = "ValidationError" then false
  else if strIncludes error.message "404" then false
  else failureCount < 2

/-- The retryDelay option of useHolidays:
min(DELAY_MULTIPLIER * 2 ^ attemptIndex, 10000). -/
def holidaysRetryDelay (attemptIndex : Nat) : Nat :=
  min (RETRY_CONFIG.DELAY_MULTIPLIER * 2 ^ attemptIndex) 10000

/-- The enabled option of useHolidays: the JS double negation of the
country code string, true exactly on non-empty strings. -/
def useHolidaysEnabled (countryIsoCode : String) : Bool :=
  countryIsoCode ≠ ""

/-- The spec error taxonomy for TypedError kinds. -/
inductive ErrKind where
  | Transport : ErrKind
  | NotFound : ErrKind
  | Validation : ErrKind
  | Unknown : ErrKind
deriving Repr, DecidableEq

/-- Modelled from the spec: the error mapping of section 4.2 assigns
kind Validation to schema-validation failures, NotFound to HTTP 404,
and Transport to other non-2xx statuses. Errors without a status are
transport or unknown failures; no theorem below depends on that branch,
which this model maps to Unknown. -/
def specKind (e : ErrModel) : ErrKind :=
  if e.name = "ValidationError" then .Validation
  else
    match e.status with
    | some 404 => .NotFound
    | some _ => .Transport
    | none => .Unknown

/-- The per-key read the Query Layer exposes to the UI: data, error
and how many network fetches were issued for the key. -/
structure QueryState (T : Type) where
  data : Option T
  error : Option ErrModel
  fetchCount : Nat
deriving Repr, DecidableEq

/-- Modelled from the spec: the Query Layer itself is the external
@tanstack/react-query library, absent from the repository; section 4.3
specifies that a request for a key with enabled = false performs no
network activity and yields an inert no-data state rather than an
error, while an enabled key runs its fetch and stores the data or the
error. -/
def runQuery (enabled : Bool) (result : Except ErrModel T) : QueryState T :=
  if enabled then
    match result with
    | .ok v => ⟨some v, none, 1⟩
    | .error e => ⟨none, some e, 1⟩
  else ⟨none, none, 0⟩

/-- The render outcome of the HolidayList component, abstracted to the
three top-level branches of src/components/HolidayList.tsx. -/
inductive HolidayListView where
  | nothing : HolidayListView
  | errorCard : HolidayListView
  | content : HolidayListView
deriving Repr, DecidableEq

/-- HolidayList returns null for an empty country code, an error card
when the holidays query reports an error, and the content card
otherwise. -/
def holidayListView (countryIsoCode : String) (error : Option ErrModel) : HolidayListView :=
  if countryIsoCode = "" then .nothing
  else
    match error with
    | some _ => .errorCard
    | none => .content

/-- The JS expression a || b on strings with undefined modelled as the
empty string: the empty string is falsy. -/
def orFalsy (a b : String) : String :=
  if a = "" then b else a

/-- JS String.prototype.toLowerCase, modelled on the character list of
the string; the ASCII lowering of Char.toLower is sufficient for the
locale codes at hand. -/
def strToLower (s : String) : String :=
  ⟨s.data.map Char.toLower⟩

/-- getLocalizedText of services/holidaysApi.ts: find the first item
whose language equals the preferred language case-insensitively, then
return preferred.text, falling through empty or absent texts to the
first item and then to the literal Unknown. -/
def getLocalizedText (items : List LocalizedText) (preferredLanguage : String := "en") : String :=
  let preferred := items.find? fun item => strToLower item.language == strToLower preferredLanguage
  orFalsy (match preferred with | some p => p.text | none => "")
    (orFalsy (match items.head? with | some h => h.text | none => "") "Unknown")

/-- Structural conformance of a JSON value to the LocalizedText shape,
stated independently of the parser: an object whose language and text
fields are present strings. -/
def isLocalizedTextShaped (j : Json) : Bool :=
  j.isObj && (lookupStr j "language").isSome && (lookupStr j "text").isSome

/-- Structural conformance of a JSON value to the Country shape: an
object with a present string isoCode, an array of LocalizedText-shaped
values at name, and an array of strings at officialLanguages. -/
def isCountryShaped (j : Json) : Bool :=
  j.isObj && (lookupStr j "isoCode").isSome &&
    (match lookupArr j "name" with
     | some ns => ns.all isLocalizedTextShaped
     | none => false) &&
    (match lookupArr j "officialLanguages" with
     | some ls => ls.all Json.isStr
     | none => false)

/-- A validated LocalizedText preserves the two fields of its JSON
source. -/
def localizedTextMatches (j : Json) (t : LocalizedText) : Bool :=
  lookupStr j "language" == some t.language && lookupStr j "text" == some t.text

/-- A validated Country preserves every declared field of its JSON
source: the isoCode string, the name entries pairwise, and the
officialLanguages strings pairwise. -/
def countryMatches (j : Json) (c : Country) : Bool :=
  lookupStr j "isoCode" == some c.isoCode &&
    (match lookupArr j "name" with
     | some ns =>
       ns.length == c.name.length &&
         (ns.zip c.name).all fun pr => localizedTextMatches pr.1 pr.2
     | none => false) &&
    (match lookupArr j "officialLanguages" with
     | some ls =>
       ls.length == c.officialLanguages.length &&
         (ls.zip c.officialLanguages).all fun pr => parseString pr.1 == some pr.2
     | none => false)

/-- A concrete JSON value of the Country shape, used to evaluate the
validation theorems. -/
def sampleCountryJson : Json :=
  .obj [("isoCode", .str "US"),
        ("name", .arr [.obj [("language", .str "en"), ("text", .str "United States")]]),
        ("officialLanguages", .arr [.str "en"])]

/-!
Theorems. Each claim of the specification is settled by one theorem
below; shared helper lemmas precede the claim theorems they serve.
-/

/-- C1: the claim says a 404 response from the holidays endpoint is
never retried. The code disagrees: the thrown error carries the
message "API request failed: " followed by the status text, which does
not contain the substring 404, so the retry predicate of the holidays
resource returns true at failure counts 0 and 1 and the 404 is
retried — although the error does carry HTTP status 404 and is
NotFound under the spec taxonomy, and the source comment states that
404s are not retried. -/
theorem holidays404IsRetried :
    fetchHolidays (.response 404 "Not Found" (.ok .null)) =
      .error (HolidaysApiError.make "API request failed: Not Found" (some 404)) ∧
    specKind (HolidaysApiError.make "API request failed: Not Found" (some 404)) = .NotFound ∧
    holidaysRetry 0 (HolidaysApiError.make "API request failed: Not Found" (some 404)) = true ∧
    holidaysRetry 1 (HolidaysApiError.make "API request failed: Not Found" (some 404)) = true := by
  refine ⟨rfl, rfl, rfl, rfl⟩

/-- C2: an error named ValidationError is never retried, at any
failure count, by the retry predicate of either resource. -/
theorem validationErrorNeverRetried (failureCount : Nat) (e : ErrModel)
    (h : e.name = "ValidationError") :
    countriesRetry failureCount e = false ∧ holidaysRetry failureCount e = false := by
  simp [countriesRetry, holidaysRetry, h]

/-- Witness for C2 at failure counts 0 and 5 on the error actually
thrown by fetchWithValidation. -/
theorem validationErrorNeverRetried_witness :
    (ValidationError.make "Invalid API response format").name = "ValidationError" ∧
    countriesRetry 0 (ValidationError.make "Invalid API response format") = false ∧
    holidaysRetry 5 (ValidationError.make "Invalid API response format") = false :=
  ⟨rfl, (validationErrorNeverRetried 0 _ rfl).1,
    (validationErrorNeverRetried 5 _ rfl).2⟩

/-- C3: the backoff delay of attempt n is min(1000 * 2 ^ n, 30000) for
the countries resource and min(1000 * 2 ^ n, 10000) for the holidays
resource, the first three countries delays are 1000, 2000 and 4000 ms,
and a non-validation error is retried while the failure count is below
3 for countries, and below 2 for holidays when additionally the
message does not contain 404. -/
theorem retryPolicyMatchesConfig :
    (∀ n, countriesRetryDelay n = min (1000 * 2 ^ n) 30000) ∧
    (∀ n, holidaysRetryDelay n = min (1000 * 2 ^ n) 10000) ∧
    countriesRetryDelay 0 = 1000 ∧ countriesRetryDelay 1 = 2000 ∧
    countriesRetryDelay 2 = 4000 ∧
    (∀ e : ErrModel, e.name ≠ "ValidationError" →
      ∀ n, countriesRetry n e = decide (n < 3)) ∧
    (∀ e : ErrModel, e.name ≠ "ValidationError" →
      strIncludes e.message "404" = false →
      ∀ n, holidaysRetry n e = decide (n < 2)) := by
  refine ⟨fun n => rfl, fun n => rfl, rfl, rfl, rfl, ?_, ?_⟩
  · intro e he n
    simp [countriesRetry, RETRY_CONFIG.MAX_RETRIES, he]
  · intro e he h404 n
    simp [holidaysRetry, he, h404]

/-- Witness for C3 on a transport error with HTTP status 500: retried
at counts 2 and 1 by the respective predicates, stopped at 3 and 2. -/
theorem retryPolicyMatchesConfig_witness :
    (HolidaysApiError.make "fetch failed" (some 500)).name ≠ "ValidationError" ∧
    strIncludes (HolidaysApiError.make "fetch failed" (some 500)).message "404" = false ∧
    countriesRetry 2 (HolidaysApiError.make "fetch failed" (some 500)) = true ∧
    countriesRetry 3 (HolidaysApiError.make "fetch failed" (some 500)) = false ∧
    holidaysRetry 1 (HolidaysApiError.make "fetch failed" (some 500)) = true ∧
    holidaysRetry 2 (HolidaysApiError.make "fetch failed" (some 500)) = false := by
  refine ⟨by decide, by decide, ?_, ?_, ?_, ?_⟩
  · exact (retryPolicyMatchesConfig.2.2.2.2.2.1 _ (by decide) 2).trans (by decide)
  · exact (retryPolicyMatchesConfig.2.2.2.2.2.1 _ (by decide) 3).trans (by decide)
  · exact (retryPolicyMatchesConfig.2.2.2.2.2.2 _ (by decide) (by decide) 1).trans (by decide)
  · exact (retryPolicyMatchesConfig.2.2.2.2.2.2 _ (by decide) (by decide) 2).trans (by decide)

/-- C6: with the year omitted, fetchHolidays builds the spec request
URL for the current calendar year; with a non-zero year given, it
builds the spec request URL for that year. The spec URL fixes the
query parameters countryIsoCode, languageIsoCode=EN,
validFrom=year-01-01 and validTo=year-12-31. -/
theorem fetchHolidaysUrlMatchesSpec (countryIsoCode : String) (currentYear : Nat) :
    fetchHolidaysUrl countryIsoCode none currentYear =
      specHolidaysRequestUrl countryIsoCode currentYear ∧
    ∀ y : Nat, y ≠ 0 →
      fetchHolidaysUrl countryIsoCode (some y) currentYear =
        specHolidaysRequestUrl countryIsoCode y := by
  constructor
  · rfl
  · intro y hy
    simp [fetchHolidaysUrl, fetchHolidaysYear, specHolidaysRequestUrl, hy]

/-- Witness for C6 at country US, current year 2025 and explicit year
2024. -/
theorem fetchHolidaysUrlMatchesSpec_witness :
    (2024 : Nat) ≠ 0 ∧
    fetchHolidaysUrl "US" none 2025 = specHolidaysRequestUrl "US" 2025 ∧
    fetchHolidaysUrl "US" (some 2024) 2025 = specHolidaysRequestUrl "US" 2024 :=
  ⟨by decide, (fetchHolidaysUrlMatchesSpec "US" 2025).1,
    (fetchHolidaysUrlMatchesSpec "US" 2025).2 2024 (by decide)⟩

/-- C8: an empty country code disables the holidays query, the
disabled query performs no fetch and exposes neither data nor error,
and the HolidayList component renders nothing for it. -/
theorem emptyCountryCodeQueryInert :
    useHolidaysEnabled "" = false ∧
    (∀ r : Except ErrModel (List Holiday),
      runQuery (useHolidaysEnabled "") r = ⟨none, none, 0⟩) ∧
    (∀ e : Option ErrModel, holidayListView "" e = .nothing) :=
  ⟨rfl, fun _ => rfl, fun _ => rfl⟩

/-- Unfolding of getLocalizedText into the two-stage falsy fallback. -/
theorem getLocalizedText_eq (items : List LocalizedText) (pref : String) :
    getLocalizedText items pref =
      orFalsy
        (match items.find? (fun item => strToLower item.language == strToLower pref) with
         | some p => p.text
         | none => "")
        (orFalsy (match items.head? with | some h => h.text | none => "") "Unknown") := rfl

/-- The falsy fallback never returns the empty string when its second
argument is non-empty. -/
theorem orFalsy_ne_empty (a b : String) (hb : b ≠ "") : orFalsy a b ≠ "" := by
  unfold orFalsy
  split
  · exact hb
  · assumption

/-- The falsy fallback keeps a non-empty first argument. -/
theorem orFalsy_of_ne (a b : String) (ha : a ≠ "") : orFalsy a b = a := by
  simp [orFalsy, ha]

/-- C7 counterexample: the list whose only entry matches the preferred
language but has empty text. The claim as stated requires the matched
text, the empty string, to be returned; the code returns the literal
Unknown instead. -/
theorem getLocalizedTextEmptyTextCounterexample :
    ([⟨"en", ""⟩] : List LocalizedText).find?
        (fun item => strToLower item.language == strToLower "en") = some ⟨"en", ""⟩ ∧
    getLocalizedText [⟨"en", ""⟩] "en" = "Unknown" ∧
    "Unknown" ≠ "" := by
  refine ⟨by decide, by decide, by decide⟩

/-- C7 as amended: getLocalizedText returns the text of the first
case-insensitive language match when that text is non-empty; an empty
or absent match falls through to the first entry when its text is
non-empty, then to the literal Unknown; the empty list yields
Unknown. -/
theorem getLocalizedTextFallbackChain (items : List LocalizedText) (pref : String) :
    (∀ e, items.find? (fun item => strToLower item.language == strToLower pref) = some e →
      (e.text ≠ "" → getLocalizedText items pref = e.text) ∧
      (e.text = "" → ∀ h, items.head? = some h → h.text ≠ "" →
        getLocalizedText items pref = h.text) ∧
      (e.text = "" → (∀ h, items.head? = some h → h.text = "") →
        getLocalizedText items pref = "Unknown")) ∧
    (items.find? (fun item => strToLower item.language == strToLower pref) = none →
      (∀ h, items.head? = some h → h.text ≠ "" → getLocalizedText items pref = h.text) ∧
      ((∀ h, items.head? = some h → h.text = "") →
        getLocalizedText items pref = "Unknown")) ∧
    (items = [] → getLocalizedText items pref = "Unknown") := by
  refine ⟨?_, ?_, ?_⟩
  · intro e hfind
    refine ⟨?_, ?_, ?_⟩
    · intro he
      simp [getLocalizedText_eq, hfind, orFalsy, he]
    · intro he h hh hht
      simp [getLocalizedText_eq, hfind, hh, he, orFalsy, hht]
    · intro he hall
      cases hh : items.head? with
      | none => simp [getLocalizedText_eq, hfind, he, hh, orFalsy]
      | some h => simp [getLocalizedText_eq, hfind, he, hh, orFalsy, hall h hh]
  · intro hfind
    constructor
    · intro h hh hht
      simp [getLocalizedText_eq, hfind, hh, orFalsy, hht]
    · intro hall
      cases hh : items.head? with
      | none => simp [getLocalizedText_eq, hfind, hh, orFalsy]
      | some h => simp [getLocalizedText_eq, hfind, hh, orFalsy, hall h hh]
  · intro h
    subst h
    rfl

/-- Witness for C7 as amended, at the three examples of the spec. -/
theorem getLocalizedTextFallbackChain_witness :
    ([⟨"de", "Weihnachten"⟩, ⟨"en", "Christmas"⟩] : List LocalizedText).find?
        (fun item => strToLower item.language == strToLower "en") =
      some ⟨"en", "Christmas"⟩ ∧
    getLocalizedText [⟨"de", "Weihnachten"⟩, ⟨"en", "Christmas"⟩] "en" = "Christmas" ∧
    ([⟨"de", "Weihnachten"⟩] : List LocalizedText).find?
        (fun item => strToLower item.language == strToLower "en") = none ∧
    getLocalizedText [⟨"de", "Weihnachten"⟩] "en" = "Weihnachten" ∧
    getLocalizedText ([] : List LocalizedText) "en" = "Unknown" :=
  ⟨by decide,
   ((getLocalizedTextFallbackChain _ "en").1 ⟨"en", "Christmas"⟩ (by decide)).1 (by decide),
   by decide,
   ((getLocalizedTextFallbackChain _ "en").2.1 (by decide)).1 ⟨"de", "Weihnachten"⟩
     (by decide) (by decide),
   (getLocalizedTextFallbackChain [] "en").2.2 rfl⟩

/-- C10: getLocalizedText never returns the empty string, and a
language match with empty text is skipped: the result then comes from
the first entry when its text is non-empty, else it is the literal
Unknown. -/
theorem getLocalizedTextNeverEmpty (items : List LocalizedText) (pref : String) :
    getLocalizedText items pref ≠ "" ∧
    (∀ e, items.find? (fun item => strToLower item.language == strToLower pref) = some e →
      e.text = "" →
      ((∃ h, items.head? = some h ∧ h.text ≠ "" ∧ getLocalizedText items pref = h.text) ∨
        getLocalizedText items pref = "Unknown")) := by
  constructor
  · rw [getLocalizedText_eq]
    exact orFalsy_ne_empty _ _ (orFalsy_ne_empty _ _ (by decide))
  · intro e hfind he
    cases hh : items.head? with
    | none =>
      right
      simp [getLocalizedText_eq, hfind, he, hh, orFalsy]
    | some h =>
      by_cases hht : h.text = ""
      · right
        simp [getLocalizedText_eq, hfind, he, hh, orFalsy, hht]
      · left
        exact ⟨h, rfl, hht, by simp [getLocalizedText_eq, hfind, he, hh, orFalsy, hht]⟩

/-- Witness for C10: the match for en has empty text, the first entry
is the German one, and its text is returned. -/
theorem getLocalizedTextNeverEmpty_witness :
    getLocalizedText [⟨"de", "Weihnachten"⟩, ⟨"en", ""⟩] "en" ≠ "" ∧
    ([⟨"de", "Weihnachten"⟩, ⟨"en", ""⟩] : List LocalizedText).find?
        (fun item => strToLower item.language == strToLower "en") = some ⟨"en", ""⟩ ∧
    ((∃ h, ([⟨"de", "Weihnachten"⟩, ⟨"en", ""⟩] : List LocalizedText).head? = some h ∧
        h.text ≠ "" ∧ getLocalizedText [⟨"de", "Weihnachten"⟩, ⟨"en", ""⟩] "en" = h.text) ∨
      getLocalizedText [⟨"de", "Weihnachten"⟩, ⟨"en", ""⟩] "en" = "Unknown") :=
  ⟨(getLocalizedTextNeverEmpty _ "en").1, by decide,
    (getLocalizedTextNeverEmpty _ "en").2 ⟨"en", ""⟩ (by decide) rfl⟩

/-- Characterization of string-typed field access. -/
theorem lookupStr_eq_some {j : Json} {k : String} {s : String} :
    lookupStr j k = some s ↔ j.lookup k = some (.str s) := by
  unfold lookupStr
  cases hj : j.lookup k with
  | none => simp
  | some v => cases v <;> simp

/-- Characterization of array-typed field access. -/
theorem lookupArr_eq_some {j : Json} {k : String} {xs : List Json} :
    lookupArr j k = some xs ↔ j.lookup k = some (.arr xs) := by
  unfold lookupArr
  cases hj : j.lookup k with
  | none => simp
  | some v => cases v <;> simp

/-- Element-wise validation succeeds on a list of shaped values and
relates every input element to its output element. -/
theorem parseAll_of_all {α : Type} {p : Json → Option α} {shape : Json → Bool}
    {q : Json → α → Bool}
    (hp : ∀ j, shape j = true → ∃ y, p j = some y ∧ q j y = true) :
    ∀ xs : List Json, (∀ j ∈ xs, shape j = true) →
      ∃ ys, parseAll p xs = some ys ∧ ys.length = xs.length ∧
        ∀ pr ∈ xs.zip ys, q pr.1 pr.2 = true := by
  intro xs
  induction xs with
  | nil =>
    intro _
    exact ⟨[], rfl, rfl, by intro pr hpr; cases hpr⟩
  | cons x xs ih =>
    intro hall
    obtain ⟨y, hy, hq⟩ := hp x (hall x (List.mem_cons_self x xs))
    obtain ⟨ys, hys, hlen, hmat⟩ := ih fun j hj => hall j (List.mem_cons_of_mem x hj)
    refine ⟨y :: ys, ?_, ?_, ?_⟩
    · simp [parseAll, hy, hys]
    · simp [hlen]
    · intro pr hpr
      rw [List.zip_cons_cons] at hpr
      rcases List.mem_cons.mp hpr with h | h

      · subst h
        exact hq
      · exact hmat pr h

/-- Element-wise validation fails as soon as one element fails. -/
theorem parseAll_none_of_mem {α : Type} {p : Json → Option α} :
    ∀ xs : List Json, ∀ x ∈ xs, p x = none → parseAll p xs = none := by
  intro xs
  induction xs with
  | nil =>
    intro x hx
    cases hx
  | cons a as ih =>
    intro x hx hnone
    rcases List.mem_cons.mp hx with h | h
    · subst h
      simp [parseAll, hnone]
    · cases hpa : p a <;> simp [parseAll, hpa, ih x h hnone]

/-- A LocalizedText-shaped JSON value validates and the result
preserves both fields. -/
theorem parseLocalizedText_of_shaped (j : Json) (h : isLocalizedTextShaped j = true) :
    ∃ t, parseLocalizedText j = some t ∧ localizedTextMatches j t = true := by
  cases j with
  | obj fields =>
    cases hl : lookupStr (Json.obj fields) "language" with
    | none => simp [isLocalizedTextShaped, hl] at h
    | some lang =>
      cases ht : lookupStr (Json.obj fields) "text" with
      | none => simp [isLocalizedTextShaped, hl, ht] at h
      | some txt =>
        exact ⟨⟨lang, txt⟩, by simp [parseLocalizedText, hl, ht],
          by simp [localizedTextMatches, hl, ht]⟩
  | null => simp [isLocalizedTextShaped, Json.isObj] at h
  | bool b => simp [isLocalizedTextShaped, Json.isObj] at h
  | num n => simp [isLocalizedTextShaped, Json.isObj] at h
  | str s => simp [isLocalizedTextShaped, Json.isObj] at h
  | arr xs => simp [isLocalizedTextShaped, Json.isObj] at h

/-- A string-shaped JSON value validates as a string and the result
re-reads to the same string. -/
theorem parseString_of_shaped (j : Json) (h : Json.isStr j = true) :
    ∃ s, parseString j = some s ∧ (parseString j == some s) = true := by
  cases j with
  | str s => exact ⟨s, rfl, by simp [parseString]⟩
  | null => simp [Json.isStr] at h
  | bool b => simp [Json.isStr] at h
  | num n => simp [Json.isStr] at h
  | arr xs => simp [Json.isStr] at h
  | obj fields => simp [Json.isStr] at h

/-- A Country-shaped JSON value validates and the result preserves
every declared field. -/
theorem parseCountry_of_shaped (j : Json) (h : isCountryShaped j = true) :
    ∃ c, parseCountry j = some c ∧ countryMatches j c = true := by
  cases j with
  | obj fields =>
    cases hIso : lookupStr (Json.obj fields) "isoCode" with
    | none => simp [isCountryShaped, hIso] at h
    | some iso =>
      cases hName : lookupArr (Json.obj fields) "name" with
      | none => simp [isCountryShaped, hName] at h
      | some ns =>
        cases hLangs : lookupArr (Json.obj fields) "officialLanguages" with
        | none => simp [isCountryShaped, hLangs] at h
        | some ls =>
          have hShapes : (∀ x ∈ ns, isLocalizedTextShaped x = true) ∧
              (∀ x ∈ ls, Json.isStr x = true) := by
            have hc := h
            simp [isCountryShaped, Json.isObj, hIso, hName, hLangs] at hc
            exact hc
          obtain ⟨name, hnames, hnlen, hnmat⟩ :=
            parseAll_of_all parseLocalizedText_of_shaped ns hShapes.1
          obtain ⟨langs, hlangs, hllen, hlmat⟩ :=
            parseAll_of_all parseString_of_shaped ls hShapes.2
          refine ⟨⟨iso, name, langs⟩, ?_, ?_⟩
          · simp [parseCountry, hIso, lookupArr_eq_some.mp hName,
              lookupArr_eq_some.mp hLangs, parseArray, hnames, hlangs]
          · simp [countryMatches, hIso, hName, hLangs, hnlen, hllen]
            exact ⟨fun a b hab => hnmat (a, b) hab,
              fun a b hab => by simpa using hlmat (a, b) hab⟩
  | null => simp [isCountryShaped, Json.isObj] at h
  | bool b => simp [isCountryShaped, Json.isObj] at h
  | num n => simp [isCountryShaped, Json.isObj] at h
  | str s => simp [isCountryShaped, Json.isObj] at h
  | arr xs => simp [isCountryShaped, Json.isObj] at h

/-- A JSON object missing one of the three required Country fields
fails Country validation. -/
theorem parseCountry_none_of_missing (fields : List (String × Json))
    (h : (Json.obj fields).lookup "isoCode" = none ∨
      (Json.obj fields).lookup "name" = none ∨
      (Json.obj fields).lookup "officialLanguages" = none) :
    parseCountry (.obj fields) = none := by
  rcases h with h | h | h
  · simp [parseCountry, lookupStr, h]
  · cases hIso : lookupStr (Json.obj fields) "isoCode" <;>
      simp [parseCountry, hIso, h]
  · cases hIso : lookupStr (Json.obj fields) "isoCode" <;>
      cases hName : (Json.obj fields).lookup "name" <;>
      simp [parseCountry, hIso, hName, h]

/-- C4: a JSON array of Country-shaped elements validates to an array
of equal length whose elements preserve every declared field; an array
containing an object that misses a required Country field makes the
fetch fail with the Validation-kind ValidationError; the empty array
validates to the empty array. -/
theorem countriesValidation (js : List Json) :
    ((∀ j ∈ js, isCountryShaped j = true) →
      ∃ cs, CountriesResponseSchema (.arr js) = some cs ∧ cs.length = js.length ∧
        ∀ pr ∈ js.zip cs, countryMatches pr.1 pr.2 = true) ∧
    (∀ fs, Json.obj fs ∈ js →
      ((Json.obj fs).lookup "isoCode" = none ∨
        (Json.obj fs).lookup "name" = none ∨
        (Json.obj fs).lookup "officialLanguages" = none) →
      fetchWithValidation (.response 200 "OK" (.ok (.arr js))) CountriesResponseSchema =
        .error (ValidationError.make "Invalid API response format") ∧
      specKind (ValidationError.make "Invalid API response format") = .Validation) ∧
    CountriesResponseSchema (.arr []) = some [] := by
  refine ⟨?_, ?_, rfl⟩
  · intro hall
    obtain ⟨cs, hcs, hlen, hmat⟩ := parseAll_of_all parseCountry_of_shaped js hall
    exact ⟨cs, by simp [CountriesResponseSchema, parseArray, hcs], hlen, hmat⟩
  · intro fs hmem hmissing
    have hnone : CountriesResponseSchema (.arr js) = none := by
      simp [CountriesResponseSchema, parseArray]
      exact parseAll_none_of_mem js _ hmem (parseCountry_none_of_missing fs hmissing)
    exact ⟨by simp [fetchWithValidation, responseOk, hnone], rfl⟩

/-- Witness for C4: a one-element array of the sample country
validates and preserves its fields; the array holding one empty object
fails with ValidationError; paired with the empty-array conjunct. -/
theorem countriesValidation_witness :
    (∀ j ∈ [sampleCountryJson], isCountryShaped j = true) ∧
    (∃ cs, CountriesResponseSchema (.arr [sampleCountryJson]) = some cs ∧
      cs.length = [sampleCountryJson].length ∧
      ∀ pr ∈ [sampleCountryJson].zip cs, countryMatches pr.1 pr.2 = true) ∧
    (Json.obj []).lookup "isoCode" = none ∧
    (fetchWithValidation (.response 200 "OK" (.ok (.arr [Json.obj []])))
        CountriesResponseSchema =
      .error (ValidationError.make "Invalid API response format") ∧
      specKind (ValidationError.make "Invalid API response format") = .Validation) ∧
    CountriesResponseSchema (.arr []) = some [] :=
  ⟨by decide,
   (countriesValidation [sampleCountryJson]).1 (by decide),
   rfl,
   (countriesValidation [Json.obj []]).2.1 [] (List.mem_cons_self _ _) (Or.inl rfl),
   (countriesValidation []).2.2⟩

/-- C5: a 2xx response whose body parses as JSON but fails the schema
always produces the ValidationError (with the zod cause attached), of
spec kind Validation and not Transport, for any schema. -/
theorem validationTakesPrecedence {T : Type} (schema : Json → Option T)
    (status : Nat) (statusText : String) (j : Json)
    (hok : responseOk status = true) (hfail : schema j = none) :
    fetchWithValidation (.response status statusText (.ok j)) schema =
      .error (ValidationError.make "Invalid API response format") ∧
    (ValidationError.make "Invalid API response format").name = "ValidationError" ∧
    (ValidationError.make "Invalid API response format").hasCause = true ∧
    specKind (ValidationError.make "Invalid API response format") = .Validation ∧
    specKind (ValidationError.make "Invalid API response format") ≠ .Transport := by
  refine ⟨?_, rfl, rfl, rfl, by decide⟩
  simp [fetchWithValidation, hok, hfail]

/-- Witness for C5: a 200 response whose body is the JSON number 5,
which is no Country array. -/
theorem validationTakesPrecedence_witness :
    responseOk 200 = true ∧
    CountriesResponseSchema (.num 5) = none ∧
    fetchWithValidation (.response 200 "OK" (.ok (.num 5))) CountriesResponseSchema =
      .error (ValidationError.make "Invalid API response format") ∧
    specKind (ValidationError.make "Invalid API response format") ≠ .Transport :=
  ⟨rfl, rfl,
   (validationTakesPrecedence CountriesResponseSchema 200 "OK" (.num 5) rfl rfl).1,
   (validationTakesPrecedence CountriesResponseSchema 200 "OK" (.num 5) rfl rfl).2.2.2.2⟩

end PublicHolidaysApp
